import Mathlib

/-!
Verification of the ECS task-launching core of `dagster_aws.ecs.tasks`
(`src/python_modules/libraries/dagster-aws/dagster_aws/ecs/tasks.py`).

The Python module manipulates JSON-like dictionaries (task-definition
documents, container definitions, metadata responses).  We embed those as
association lists over a JSON-like value type, with Python-dict semantics
for lookup, membership and `dict.update` / `{**a, **b}` merging.
-/

set_option autoImplicit false
set_option linter.unusedVariables false
set_option linter.unnecessarySeqFocus false

/-- JSON-like values, the payload type of the dictionaries the Python code
manipulates.  `obj` is a dictionary (association list, first occurrence of a
key wins on lookup, as a Python dict always has unique keys). -/
inductive JVal where
  | s (v : String)
  | b (v : Bool)
  | null
  | arr (vs : List JVal)
  | obj (fields : List (String × JVal))

/-- A Python dictionary with string keys and JSON-like values. -/
abbrev Dict := List (String × JVal)

/-- Python `d[k]` / `d.get(k)`: value at the first occurrence of key `k`. -/
def dlookup : Dict → String → Option JVal
  | [], _ => none
  | (k, v) :: rest, key => if k = key then some v else dlookup rest key

/-- Python `k in d`. -/
def dcontains (d : Dict) (k : String) : Bool :=
  (dlookup d k).isSome

/-- Python `d[k] = v`: replace the value at the first occurrence of `k`,
keeping its position, or append the pair when `k` is absent.  This is how
CPython dicts behave under assignment (existing keys keep their insertion
position). -/
def dupdate : Dict → String × JVal → Dict
  | [], kv => [kv]
  | (k, v) :: rest, (key, val) =>
      if k = key then (k, val) :: rest else (k, v) :: dupdate rest (key, val)

/-- Python `d.update(e)` / the tail of `\x7b**d, **e\x7d`: assign every pair of
`e` into `d`, left to right. -/
def dinsertAll (d e : Dict) : Dict :=
  e.foldl dupdate d

/-- Modelled from the spec: `merge_dicts` is imported from `dagster.utils`,
which is not under `src/`.  Per the spec's synthesizer algorithm (overrides
listed later replace fields inherited earlier, and empty dictionaries
contribute nothing), it is the n-ary Python dict merge: start from an empty
dictionary and assign every pair of every argument, left to right, so a key
appearing in several arguments takes the value of the last. -/
def merge_dicts (ds : List Dict) : Dict :=
  ds.foldl dinsertAll []

@[simp] theorem dlookup_nil (k : String) : dlookup [] k = none := rfl

@[simp] theorem dlookup_cons (k k' : String) (v : JVal) (d : Dict) :
    dlookup ((k, v) :: d) k' = if k = k' then some v else dlookup d k' := rfl

@[simp] theorem dupdate_nil (kv : String × JVal) : dupdate [] kv = [kv] := rfl

theorem dlookup_dupdate (d : Dict) (k : String) (v : JVal) (k' : String) :
    dlookup (dupdate d (k, v)) k' = if k = k' then some v else dlookup d k' := by
  induction d with
  | nil => simp [dupdate, dlookup]
  | cons hd tl ih =>
    obtain ⟨hk, hv⟩ := hd
    by_cases h1 : hk = k
    · subst h1
      by_cases h2 : hk = k' <;> simp [dupdate, dlookup, h2]
    · by_cases h2 : hk = k'
      · subst h2
        have hne : ¬(k = hk) := fun h => h1 h.symm
        simp [dupdate, h1, dlookup, hne]
      · simp [dupdate, h1, dlookup, h2, ih]

theorem dcontains_dupdate (d : Dict) (k : String) (v : JVal) (k' : String) :
    dcontains (dupdate d (k, v)) k' = (dcontains d k' || decide (k = k')) := by
  by_cases h : k = k' <;> simp [dcontains, dlookup_dupdate, h]

@[simp] theorem dinsertAll_nil (d : Dict) : dinsertAll d [] = d := rfl

@[simp] theorem dinsertAll_cons (d : Dict) (kv : String × JVal) (e : Dict) :
    dinsertAll d (kv :: e) = dinsertAll (dupdate d kv) e := rfl

theorem dlookup_append (a b : Dict) (k : String) :
    dlookup (a ++ b) k =
      (match dlookup a k with
       | some v => some v
       | none => dlookup b k) := by
  induction a with
  | nil => simp [dlookup]
  | cons p rest ih =>
    obtain ⟨pk, pv⟩ := p
    by_cases h : pk = k <;> simp [dlookup, h, ih]

theorem dlookup_dinsertAll (d e : Dict) (k : String) :
    dlookup (dinsertAll d e) k =
      (match dlookup e.reverse k with
       | some v => some v
       | none => dlookup d k) := by
  induction e generalizing d with
  | nil => simp
  | cons kv e ih =>
    obtain ⟨hk, hv⟩ := kv
    rw [dinsertAll_cons, ih]
    simp only [List.reverse_cons, dlookup_append, dlookup_dupdate]
    cases dlookup e.reverse k <;> by_cases h : hk = k <;> simp [dlookup, h]

theorem dcontains_dinsertAll (d e : Dict) (k : String) :
    dcontains (dinsertAll d e) k = (dcontains d k || dcontains e.reverse k) := by
  simp only [dcontains, dlookup_dinsertAll]
  cases dlookup e.reverse k <;> simp

/-! ## Eventual-Consistency Poller (`current_ecs_task`)

Source lines 71-72 and 189-208.  `current_ecs_task` wraps one
`describe_tasks` lookup in `backoff(..., retry_on=(EcsNoTasksFound,),
max_retries=BACKOFF_RETRIES)` and converts an exhausted `EcsNoTasksFound`
into `EcsEventualConsistencyTimeout`.  We model one describe call as a
function from the attempt index to an outcome. -/

/-- Outcome of one `describe_task_or_raise` call: the task, the transient
`EcsNoTasksFound` (the describe response's task list was empty), or any
unrelated client error. -/
inductive DescribeOutcome (α : Type) where
  | ok (a : α)
  | noTasksFound
  | failure (e : String)
  deriving DecidableEq, Repr

/-- Errors surfaced by the poller. -/
inductive PollError where
  | noTasksFound
  | eventualConsistencyTimeout
  | clientError (e : String)
  deriving DecidableEq, Repr

/-- Source line 72: 9 retries polls for up to 51.1 seconds. -/
def BACKOFF_RETRIES : Nat := 9

/-- Modelled from the spec: `backoff` is imported from
`dagster.utils.backoff`, which is not under `src/`.  Per the spec's poller
protocol it retries `fn` up to a fixed maximum attempt count, sleeping with
exponential backoff between attempts (delays are irrelevant to the value
semantics), retries only on the designated transient error, lets any other
failure propagate immediately, and re-raises the transient error once the
attempt budget is exhausted.  The result is paired with the number of calls
made; `fuel` is the number of attempts still allowed and `i` the index of
the next attempt. -/
def backoffGo {α : Type} (fn : Nat → DescribeOutcome α) :
    Nat → Nat → Except PollError α × Nat
  | 0, _ => (Except.error PollError.noTasksFound, 0)
  | fuel + 1, i =>
      match fn i with
      | DescribeOutcome.ok a => (Except.ok a, 1)
      | DescribeOutcome.failure e => (Except.error (PollError.clientError e), 1)
      | DescribeOutcome.noTasksFound =>
          let r := backoffGo fn fuel (i + 1)
          (r.1, r.2 + 1)

/-- Source lines 189-208: run the describe call under `backoff` with
`max_retries=BACKOFF_RETRIES`, and convert an exhausted `EcsNoTasksFound`
into `EcsEventualConsistencyTimeout`.  Returns the poller's result together
with the number of describe calls made. -/
def current_ecs_task {α : Type} (fn : Nat → DescribeOutcome α) :
    Except PollError α × Nat :=
  let r := backoffGo fn BACKOFF_RETRIES 0
  (match r.1 with
   | Except.error PollError.noTasksFound =>
       Except.error PollError.eventualConsistencyTimeout
   | x => x, r.2)

theorem backoffGo_all_notFound {α : Type} (fn : Nat → DescribeOutcome α)
    (fuel i : Nat) (h : ∀ j, fn j = DescribeOutcome.noTasksFound) :
    backoffGo fn fuel i = (Except.error PollError.noTasksFound, fuel) := by
  induction fuel generalizing i with
  | zero => rfl
  | succ n ih => simp [backoffGo, h i, ih (i + 1)]

theorem backoffGo_succeeds_after {α : Type} (fn : Nat → DescribeOutcome α)
    (fuel i k : Nat) (a : α) (hk : k < fuel)
    (hbefore : ∀ j, j < k → fn (i + j) = DescribeOutcome.noTasksFound)
    (hsucc : fn (i + k) = DescribeOutcome.ok a) :
    backoffGo fn fuel i = (Except.ok a, k + 1) := by
  induction k generalizing fuel i with
  | zero =>
    obtain ⟨m, rfl⟩ := Nat.exists_eq_add_of_lt hk
    simpa [backoffGo] using congrArg (fun o => ((match o with
      | DescribeOutcome.ok a => (Except.ok a, 1)
      | DescribeOutcome.failure e => (Except.error (PollError.clientError e), 1)
      | DescribeOutcome.noTasksFound =>
          let r := backoffGo fn m (i + 1)
          (r.1, r.2 + 1) : Except PollError α × Nat))) (by simpa using hsucc)
  | succ n ih =>
    obtain ⟨m, rfl⟩ := Nat.exists_eq_add_of_lt hk
    have h0 : fn i = DescribeOutcome.noTasksFound := by
      simpa using hbefore 0 (Nat.succ_pos n)
    have hrec : backoffGo fn (n + 1 + m) (i + 1) = (Except.ok a, n + 1) := by
      apply ih
      · omega
      · intro j hj
        have := hbefore (j + 1) (by omega)
        simpa [Nat.add_comm, Nat.add_assoc, Nat.add_left_comm] using this
      · simpa [Nat.add_comm, Nat.add_assoc, Nat.add_left_comm] using hsucc
    have hfuel : n + 1 + m + 1 = (n + 1 + m) + 1 := rfl
    simp [backoffGo, h0, hrec]

/-- C1: the Eventual-Consistency Poller.  If the describe call raises the
transient not-found error exactly `k` times and then succeeds with
`k < BACKOFF_RETRIES`, the poller returns the success value after exactly
`k + 1` calls; if it always raises the transient error, the poller fails
with the eventual-consistency timeout after exactly `BACKOFF_RETRIES = 9`
calls; if it raises an unrelated error on the first call, that error
propagates with exactly one call made. -/
theorem poller_retry_spec {α : Type} (fn : Nat → DescribeOutcome α) :
    (∀ k a, k < BACKOFF_RETRIES →
      (∀ j, j < k → fn j = DescribeOutcome.noTasksFound) →
      fn k = DescribeOutcome.ok a →
      current_ecs_task fn = (Except.ok a, k + 1)) ∧
    ((∀ j, fn j = DescribeOutcome.noTasksFound) →
      current_ecs_task fn =
        (Except.error PollError.eventualConsistencyTimeout, BACKOFF_RETRIES)) ∧
    (∀ e, fn 0 = DescribeOutcome.failure e →
      current_ecs_task fn = (Except.error (PollError.clientError e), 1)) := by
  refine ⟨?_, ?_, ?_⟩
  · intro k a hk hbefore hsucc
    have := backoffGo_succeeds_after fn BACKOFF_RETRIES 0 k a hk
      (by simpa using hbefore) (by simpa using hsucc)
    simp [current_ecs_task, this]
  · intro h
    simp [current_ecs_task, backoffGo_all_notFound fn BACKOFF_RETRIES 0 h]
  · intro e h
    simp [current_ecs_task, BACKOFF_RETRIES, backoffGo, h]

/-- Example describe behaviours used to instantiate `poller_retry_spec`. -/
def describeTwoMisses : Nat → DescribeOutcome Nat :=
  fun i => if i < 2 then DescribeOutcome.noTasksFound else DescribeOutcome.ok 42

theorem poller_retry_spec_witness :
    current_ecs_task describeTwoMisses = (Except.ok 42, 3) ∧
    current_ecs_task (fun _ => (DescribeOutcome.noTasksFound : DescribeOutcome Nat)) =
      (Except.error PollError.eventualConsistencyTimeout, 9) ∧
    current_ecs_task (fun _ => (DescribeOutcome.failure "AccessDenied" : DescribeOutcome Nat)) =
      (Except.error (PollError.clientError "AccessDenied"), 1) := by
  refine ⟨?_, ?_, ?_⟩
  · exact (poller_retry_spec describeTwoMisses).1 2 42 (by decide)
      (by decide) (by decide)
  · exact (poller_retry_spec (fun _ => (DescribeOutcome.noTasksFound : DescribeOutcome Nat))).2.1
      (fun _ => rfl)
  · exact (poller_retry_spec (fun _ => (DescribeOutcome.failure "AccessDenied" : DescribeOutcome Nat))).2.2
      "AccessDenied" rfl

/-! ## Task Definition Synthesizer (`default_ecs_task_definition`)

Source lines 86-157.  The function receives the current task-definition
document (a dict), locates the container definition whose `name` equals the
current container's name, builds a new container definition from it, filters
the current document down to the keys accepted by the control plane's
register operation, and overwrites `family` and `containerDefinitions`.
In sidecar mode it mutates the input document's `containerDefinitions`
list in place (`.remove` / `.append` on the list obtained via `.get`), so
the embedding returns the output document together with the state of
`current_task_definition` after the call. -/

/-- Python exceptions surfaced by the embedded functions. -/
inductive PyErr where
  | keyError (k : String)
  | typeError
  | stopIteration
  | missingSchema
  deriving DecidableEq, Repr

/-- Structural equality on JSON-like values, used to embed Python `==` at
the `list.remove` call.  It is order-sensitive on `obj` field lists where
Python dict equality is order-insensitive; the two coincide wherever this
development applies it, because the removed element is a literal member of
the scanned list and container names are unique in every hypothesis. -/
def JVal.beq : JVal → JVal → Bool
  | JVal.s x, JVal.s y => x == y
  | JVal.b x, JVal.b y => x == y
  | JVal.null, JVal.null => true
  | JVal.arr [], JVal.arr [] => true
  | JVal.arr (x :: xs), JVal.arr (y :: ys) =>
      JVal.beq x y && JVal.beq (JVal.arr xs) (JVal.arr ys)
  | JVal.obj [], JVal.obj [] => true
  | JVal.obj ((k1, v1) :: xs), JVal.obj ((k2, v2) :: ys) =>
      k1 == k2 && JVal.beq v1 v2 && JVal.beq (JVal.obj xs) (JVal.obj ys)
  | _, _ => false

theorem JVal.beq_refl : ∀ (a : JVal), JVal.beq a a = true
  | JVal.s x => by simp [JVal.beq]
  | JVal.b x => by simp [JVal.beq]
  | JVal.null => by simp [JVal.beq]
  | JVal.arr [] => by simp [JVal.beq]
  | JVal.arr (x :: xs) => by
      simp [JVal.beq, JVal.beq_refl x, JVal.beq_refl (JVal.arr xs)]
  | JVal.obj [] => by simp [JVal.beq]
  | JVal.obj ((k1, v1) :: xs) => by
      simp [JVal.beq, JVal.beq_refl v1, JVal.beq_refl (JVal.obj xs)]

/-- Python `v == ccn` where `ccn` is a string: only a string value can
compare equal to a string. -/
def nameEq (v : JVal) (ccn : String) : Bool :=
  match v with
  | JVal.s t => t == ccn
  | _ => false

/-- Source lines 100-108: the list comprehension selecting every container
of `containerDefinitions` whose `name` equals the current container name.
Indexing a non-dict element raises `TypeError`; a container without a
`name` key raises `KeyError`, exactly as Python evaluates
`container["name"]` for each element in order. -/
def matchingContainers (ccn : String) : List JVal → Except PyErr (List Dict)
  | [] => Except.ok []
  | JVal.obj c :: rest =>
      match dlookup c "name" with
      | none => Except.error (PyErr.keyError "name")
      | some v => do
          let tail ← matchingContainers ccn rest
          pure (if nameEq v ccn then c :: tail else tail)
  | _ :: _ => Except.error PyErr.typeError

/-- Python `xs.remove(y)`: drop the first element equal to `y`.  CPython
raises `ValueError` when no element compares equal; at the single call site
the removed element is a member of the scanned list, so the not-found case
(returning the list unchanged) is unreachable. -/
def removeFirst : List JVal → JVal → List JVal
  | [], _ => []
  | x :: rest, y => if JVal.beq x y then rest else x :: removeFirst rest y

/-- Source lines 113-120: keep only the top-level keys of the current task
definition that the control plane's register operation accepts.  The
accepted key list comes from the external client's schema metadata and is a
parameter here. -/
def expectedSubset (expected_keys : List String) (cur : Dict) : Dict :=
  expected_keys.foldl
    (fun d key =>
      match dlookup cur key with
      | some v => dupdate d (key, v)
      | none => d) []

/-- Source lines 130-137: the overriding keys of the dict literal
`\x7b**container_definition, "name": ..., "image": ..., "entryPoint": [],
"command": command if command else []\x7d`.  A `None` or empty `command`
argument is replaced by the empty list. -/
def pairs4 (image container_name : String) (command : Option (List JVal)) :
    Dict :=
  [("name", JVal.s container_name), ("image", JVal.s image),
   ("entryPoint", JVal.arr []), ("command", JVal.arr (command.getD []))]

/-- Source line 138: `\x7b"environment": environment\x7d if environment else \x7b\x7d`,
where both `None` and the empty list are falsy. -/
def envDict (environment : Option (List JVal)) : Dict :=
  match environment with
  | some e => if e.isEmpty then [] else [("environment", JVal.arr e)]
  | none => []

/-- Source line 139: `\x7b"secrets": secrets\x7d if secrets else \x7b\x7d`. -/
def secDict (secrets : Option (List JVal)) : Dict :=
  match secrets with
  | some sl => if sl.isEmpty then [] else [("secrets", JVal.arr sl)]
  | none => []

/-- Source line 140: `\x7b\x7d if include_sidecars else \x7b"dependsOn": []\x7d`. -/
def depDict (include_sidecars : Bool) : Dict :=
  if include_sidecars then [] else [("dependsOn", JVal.arr [])]

/-- Source lines 129-141: `new_container_definition`, the `merge_dicts` of
the copied-and-overridden current container definition with the optional
`environment`, `secrets` and `dependsOn` overrides. -/
def newContainer (cd : Dict) (image container_name : String)
    (command environment secrets : Option (List JVal))
    (include_sidecars : Bool) : Dict :=
  merge_dicts
    [dinsertAll cd (pairs4 image container_name command),
     envDict environment, secDict secrets, depDict include_sidecars]

/-- Source lines 143-148: the container-definition list of the output.  In
sidecar mode it is the current task's list with the matched entry removed
and the synthesized entry appended (the in-place `.remove` / `.append`
mutation); otherwise it is the synthesized entry alone. -/
def synthContainers (vs : List JVal) (c : Dict) (image container_name : String)
    (command environment secrets : Option (List JVal))
    (include_sidecars : Bool) : List JVal :=
  if include_sidecars then
    removeFirst vs (JVal.obj c) ++
      [JVal.obj (newContainer c image container_name command environment
        secrets include_sidecars)]
  else
    [JVal.obj (newContainer c image container_name command environment
      secrets include_sidecars)]

/-- Source lines 86-157: `default_ecs_task_definition`.  The external
inputs that the Python function obtains by I/O are parameters:
`expected_keys` is the register-operation key set read from the client's
schema metadata, and `current_container_name` is the value returned by
`current_ecs_container_name()`.  `environment`, `command` and `secrets`
model Python optional list arguments (`none` for `None`).  The result pairs
the returned document with the state of `current_task_definition` after the
call, since sidecar mode mutates its `containerDefinitions` list in
place. -/
def default_ecs_task_definition
    (expected_keys : List String) (family : String)
    (current_task_definition : Dict) (image container_name : String)
    (environment : Option (List JVal)) (command : Option (List JVal))
    (secrets : Option (List JVal)) (include_sidecars : Bool)
    (current_container_name : String) :
    Except PyErr (Dict × Dict) := do
  let cdefs ←
    match dlookup current_task_definition "containerDefinitions" with
    | none => Except.error (PyErr.keyError "containerDefinitions")
    | some (JVal.arr vs) => Except.ok vs
    | some _ => Except.error PyErr.typeError
  let matched ← matchingContainers current_container_name cdefs
  let container_definition ←
    match matched with
    | [] => Except.error PyErr.stopIteration
    | c :: _ => Except.ok c
  let task_definition := expectedSubset expected_keys current_task_definition
  let container_definitions := synthContainers cdefs container_definition image
    container_name command environment secrets include_sidecars
  let current_after :=
    if include_sidecars then
      dupdate current_task_definition
        ("containerDefinitions", JVal.arr container_definitions)
    else current_task_definition
  let out := dinsertAll task_definition
    [("family", JVal.s family),
     ("containerDefinitions", JVal.arr container_definitions)]
  Except.ok (out, current_after)

/-! ### Dictionary key sets and nodup lemmas

Python dicts never carry duplicate keys; theorems about containers coming
from real documents carry the corresponding `Nodup` hypothesis, and these
lemmas push it through the dictionary operations. -/

/-- Key list of a dictionary, in order. -/
def dkeys (d : Dict) : List String := d.map Prod.fst

@[simp] theorem dkeys_nil : dkeys [] = [] := rfl

@[simp] theorem dkeys_cons (p : String × JVal) (d : Dict) :
    dkeys (p :: d) = p.1 :: dkeys d := rfl

theorem dlookup_eq_none_iff (d : Dict) (k : String) :
    dlookup d k = none ↔ k ∉ dkeys d := by
  induction d with
  | nil => simp
  | cons p rest ih =>
    obtain ⟨pk, pv⟩ := p
    by_cases h : pk = k
    · subst h
      simp [dlookup]
    · have hne : ¬(k = pk) := fun hh => h hh.symm
      simp [dlookup, h, hne, ih]

theorem dkeys_dupdate_mem (d : Dict) (k : String) (v : JVal)
    (h : k ∈ dkeys d) : dkeys (dupdate d (k, v)) = dkeys d := by
  induction d with
  | nil => simp at h
  | cons p rest ih =>
    obtain ⟨pk, pv⟩ := p
    by_cases hpk : pk = k
    · simp [dupdate, hpk]
    · have hmem : k ∈ dkeys rest := by
        rcases (by simpa using h : k = pk ∨ k ∈ dkeys rest) with h1 | h1
        · exact absurd h1.symm hpk
        · exact h1
      simp [dupdate, hpk, ih hmem]

theorem dkeys_dupdate_not_mem (d : Dict) (k : String) (v : JVal)
    (h : k ∉ dkeys d) : dkeys (dupdate d (k, v)) = dkeys d ++ [k] := by
  induction d with
  | nil => simp [dupdate]
  | cons p rest ih =>
    obtain ⟨pk, pv⟩ := p
    rw [dkeys_cons] at h
    have hne : pk ≠ k := fun hh => h (by simp [hh])
    have hrest : k ∉ dkeys rest := fun hh => h (by simp [hh])
    simp [dupdate, hne, ih hrest]

theorem nodup_dkeys_dupdate (d : Dict) (kv : String × JVal)
    (h : (dkeys d).Nodup) : (dkeys (dupdate d kv)).Nodup := by
  obtain ⟨k, v⟩ := kv
  by_cases hm : k ∈ dkeys d
  · rw [dkeys_dupdate_mem d k v hm]
    exact h
  · rw [dkeys_dupdate_not_mem d k v hm]
    simpa [List.nodup_append] using ⟨h, fun hh => hm hh⟩

theorem nodup_dkeys_dinsertAll (d e : Dict) (h : (dkeys d).Nodup) :
    (dkeys (dinsertAll d e)).Nodup := by
  induction e generalizing d with
  | nil => simpa using h
  | cons kv e ih =>
    rw [dinsertAll_cons]
    exact ih (dupdate d kv) (nodup_dkeys_dupdate d kv h)

theorem dlookup_reverse_of_nodup (d : Dict) (h : (dkeys d).Nodup)
    (k : String) : dlookup d.reverse k = dlookup d k := by
  induction d with
  | nil => simp
  | cons p rest ih =>
    obtain ⟨pk, pv⟩ := p
    rw [dkeys_cons, List.nodup_cons] at h
    obtain ⟨h1, h2⟩ := h
    rw [List.reverse_cons, dlookup_append, ih h2]
    by_cases hk : pk = k
    · subst hk
      have hnone : dlookup rest pk = none := (dlookup_eq_none_iff rest pk).mpr h1
      simp [hnone, dlookup]
    · cases hrest : dlookup rest k <;> simp [dlookup, hk, hrest]

theorem dlookup_dinsertAll_nil (e : Dict) (k : String) :
    dlookup (dinsertAll [] e) k = dlookup e.reverse k := by
  rw [dlookup_dinsertAll]
  cases dlookup e.reverse k <;> simp

/-! ### Lookup lemmas for the synthesized container -/

theorem envDict_reverse (environment : Option (List JVal)) :
    (envDict environment).reverse = envDict environment := by
  rcases environment with _ | e
  · simp [envDict]
  · by_cases he : e.isEmpty <;> simp [envDict, he]

theorem secDict_reverse (secrets : Option (List JVal)) :
    (secDict secrets).reverse = secDict secrets := by
  rcases secrets with _ | sl
  · simp [secDict]
  · by_cases hs : sl.isEmpty <;> simp [secDict, hs]

theorem depDict_reverse (inc : Bool) :
    (depDict inc).reverse = depDict inc := by
  cases inc <;> simp [depDict]

theorem dlookup_envDict_ne (environment : Option (List JVal)) (k : String)
    (h : k ≠ "environment") : dlookup (envDict environment) k = none := by
  have h' : ¬("environment" = k) := fun hh => h hh.symm
  rcases environment with _ | e
  · simp [envDict]
  · by_cases he : e.isEmpty <;> simp [envDict, he, dlookup, h']

theorem dlookup_secDict_ne (secrets : Option (List JVal)) (k : String)
    (h : k ≠ "secrets") : dlookup (secDict secrets) k = none := by
  have h' : ¬("secrets" = k) := fun hh => h hh.symm
  rcases secrets with _ | sl
  · simp [secDict]
  · by_cases hs : sl.isEmpty <;> simp [secDict, hs, dlookup, h']

theorem dlookup_depDict_ne (inc : Bool) (k : String)
    (h : k ≠ "dependsOn") : dlookup (depDict inc) k = none := by
  have h' : ¬("dependsOn" = k) := fun hh => h hh.symm
  cases inc <;> simp [depDict, dlookup, h']

theorem dlookup_newContainer (cd : Dict) (hnd : (dkeys cd).Nodup)
    (img cn : String) (cmd env sec : Option (List JVal)) (inc : Bool)
    (k : String) :
    dlookup (newContainer cd img cn cmd env sec inc) k =
      (match dlookup (depDict inc) k with
       | some v => some v
       | none =>
         match dlookup (secDict sec) k with
         | some v => some v
         | none =>
           match dlookup (envDict env) k with
           | some v => some v
           | none =>
             match dlookup (pairs4 img cn cmd).reverse k with
             | some v => some v
             | none => dlookup cd k) := by
  have hP : (dkeys (dinsertAll cd (pairs4 img cn cmd))).Nodup :=
    nodup_dkeys_dinsertAll cd (pairs4 img cn cmd) hnd
  show dlookup
      (dinsertAll
        (dinsertAll
          (dinsertAll (dinsertAll [] (dinsertAll cd (pairs4 img cn cmd)))
            (envDict env))
          (secDict sec))
        (depDict inc)) k = _
  rw [dlookup_dinsertAll _ (depDict inc), depDict_reverse]
  rw [dlookup_dinsertAll _ (secDict sec), secDict_reverse]
  rw [dlookup_dinsertAll _ (envDict env), envDict_reverse]
  rw [dlookup_dinsertAll_nil, dlookup_reverse_of_nodup _ hP]
  rw [dlookup_dinsertAll cd (pairs4 img cn cmd)]

theorem newContainer_name (cd : Dict) (hnd : (dkeys cd).Nodup)
    (img cn : String) (cmd env sec : Option (List JVal)) (inc : Bool) :
    dlookup (newContainer cd img cn cmd env sec inc) "name" =
      some (JVal.s cn) := by
  rw [dlookup_newContainer cd hnd,
    dlookup_depDict_ne inc _ (by decide),
    dlookup_secDict_ne sec _ (by decide),
    dlookup_envDict_ne env _ (by decide)]
  simp [pairs4, dlookup]

theorem newContainer_image (cd : Dict) (hnd : (dkeys cd).Nodup)
    (img cn : String) (cmd env sec : Option (List JVal)) (inc : Bool) :
    dlookup (newContainer cd img cn cmd env sec inc) "image" =
      some (JVal.s img) := by
  rw [dlookup_newContainer cd hnd,
    dlookup_depDict_ne inc _ (by decide),
    dlookup_secDict_ne sec _ (by decide),
    dlookup_envDict_ne env _ (by decide)]
  simp [pairs4, dlookup]

theorem newContainer_entryPoint (cd : Dict) (hnd : (dkeys cd).Nodup)
    (img cn : String) (cmd env sec : Option (List JVal)) (inc : Bool) :
    dlookup (newContainer cd img cn cmd env sec inc) "entryPoint" =
      some (JVal.arr []) := by
  rw [dlookup_newContainer cd hnd,
    dlookup_depDict_ne inc _ (by decide),
    dlookup_secDict_ne sec _ (by decide),
    dlookup_envDict_ne env _ (by decide)]
  simp [pairs4, dlookup]

theorem newContainer_dependsOn_cleared (cd : Dict) (hnd : (dkeys cd).Nodup)
    (img cn : String) (cmd env sec : Option (List JVal)) :
    dlookup (newContainer cd img cn cmd env sec false) "dependsOn" =
      some (JVal.arr []) := by
  rw [dlookup_newContainer cd hnd]
  simp [depDict, dlookup]

theorem newContainer_dependsOn_kept (cd : Dict) (hnd : (dkeys cd).Nodup)
    (img cn : String) (cmd env sec : Option (List JVal)) :
    dlookup (newContainer cd img cn cmd env sec true) "dependsOn" =
      dlookup cd "dependsOn" := by
  rw [dlookup_newContainer cd hnd]
  have h4 : dlookup (pairs4 img cn cmd).reverse "dependsOn" = none := by
    simp [pairs4, dlookup]
  have hs : dlookup (secDict sec) "dependsOn" = none :=
    dlookup_secDict_ne sec "dependsOn" (by decide)
  have he : dlookup (envDict env) "dependsOn" = none :=
    dlookup_envDict_ne env "dependsOn" (by decide)
  simp [depDict, hs, he, h4, dlookup]

theorem newContainer_environment (cd : Dict) (hnd : (dkeys cd).Nodup)
    (img cn : String) (cmd env sec : Option (List JVal)) (inc : Bool) :
    dlookup (newContainer cd img cn cmd env sec inc) "environment" =
      (match env with
       | some e => if e.isEmpty then dlookup cd "environment"
                   else some (JVal.arr e)
       | none => dlookup cd "environment") := by
  rw [dlookup_newContainer cd hnd,
    dlookup_depDict_ne inc "environment" (by decide),
    dlookup_secDict_ne sec "environment" (by decide)]
  have h4 : dlookup (pairs4 img cn cmd).reverse "environment" = none := by
    simp [pairs4, dlookup]
  rcases env with _ | e
  · simp [envDict, h4]
  · by_cases he : e.isEmpty <;> simp [envDict, he, dlookup, h4]

theorem newContainer_secrets (cd : Dict) (hnd : (dkeys cd).Nodup)
    (img cn : String) (cmd env sec : Option (List JVal)) (inc : Bool) :
    dlookup (newContainer cd img cn cmd env sec inc) "secrets" =
      (match sec with
       | some sl => if sl.isEmpty then dlookup cd "secrets"
                    else some (JVal.arr sl)
       | none => dlookup cd "secrets") := by
  rw [dlookup_newContainer cd hnd,
    dlookup_depDict_ne inc "secrets" (by decide)]
  have h4 : dlookup (pairs4 img cn cmd).reverse "secrets" = none := by
    simp [pairs4, dlookup]
  have he : dlookup (envDict env) "secrets" = none :=
    dlookup_envDict_ne env "secrets" (by decide)
  rcases sec with _ | sl
  · simp [secDict, he, h4]
  · by_cases hs : sl.isEmpty <;> simp [secDict, hs, dlookup, he, h4]

/-! ### Matching, removal and key-filter lemmas -/

theorem matchingContainers_mem (ccn : String) (vs : List JVal)
    (l : List Dict) (h : matchingContainers ccn vs = Except.ok l) :
    ∀ c ∈ l, JVal.obj c ∈ vs := by
  induction vs generalizing l with
  | nil =>
    simp [matchingContainers] at h
    subst h
    simp
  | cons v rest ih =>
    match v with
    | JVal.s _ | JVal.b _ | JVal.null | JVal.arr _ =>
      simp [matchingContainers] at h
    | JVal.obj c0 =>
      rw [matchingContainers] at h
      cases hn : dlookup c0 "name" with
      | none => rw [hn] at h; exact absurd h (by simp)
      | some nm =>
        rw [hn] at h
        cases hrec : matchingContainers ccn rest with
        | error e =>
          rw [hrec] at h
          exact absurd h (by simp [Except.bind])
        | ok tl =>
          rw [hrec] at h
          have h' : (if nameEq nm ccn = true then c0 :: tl
              else tl) = l := by
            injection h
          intro c hc
          subst h'
          by_cases hb : nameEq nm ccn = true
          · rw [if_pos hb] at hc
            rcases List.mem_cons.mp hc with hc | hc
            · simp [hc]
            · exact List.mem_cons_of_mem _ (ih tl hrec c hc)
          · rw [if_neg hb] at hc
            exact List.mem_cons_of_mem _ (ih tl hrec c hc)

theorem matchingContainers_no_match (ccn : String) (vs : List JVal)
    (h : ∀ v ∈ vs, ∃ c nm, v = JVal.obj c ∧ dlookup c "name" = some nm ∧
      nameEq nm ccn = false) :
    matchingContainers ccn vs = Except.ok [] := by
  induction vs with
  | nil => rfl
  | cons v rest ih =>
    obtain ⟨c, nm, hv, hn, hb⟩ := h v (by simp)
    subst hv
    rw [matchingContainers, hn,
      ih (fun w hw => h w (List.mem_cons_of_mem _ hw))]
    simp only [hb]
    rfl

theorem beq_ne_of_false {x y : JVal} (h : JVal.beq x y = false) : x ≠ y := by
  intro hx
  subst hx
  rw [JVal.beq_refl x] at h
  exact Bool.noConfusion h

theorem removeFirst_length (l : List JVal) (y : JVal) (h : y ∈ l) :
    (removeFirst l y).length = l.length - 1 := by
  induction l with
  | nil => simp at h
  | cons x rest ih =>
    cases hb : JVal.beq x y with
    | true => simp [removeFirst, hb]
    | false =>
      have hxy : x ≠ y := beq_ne_of_false hb
      have hmem : y ∈ rest := by
        rcases List.mem_cons.mp h with h1 | h1
        · exact absurd h1.symm hxy
        · exact h1
      have hpos : 0 < rest.length := List.length_pos.mpr (by
        intro hnil
        rw [hnil] at hmem
        simp at hmem)
      simp [removeFirst, hb, ih hmem]
      omega

theorem expectedSubset_go_contains (cur : Dict) (keys : List String)
    (d : Dict) (k : String) :
    dcontains (keys.foldl
      (fun d key =>
        match dlookup cur key with
        | some v => dupdate d (key, v)
        | none => d) d) k =
      (dcontains d k || (decide (k ∈ keys) && dcontains cur k)) := by
  induction keys generalizing d with
  | nil => simp
  | cons e rest ih =>
    rw [List.foldl_cons, ih]
    cases hc : dlookup cur e with
    | none =>
      by_cases hk : k = e
      · subst hk
        have hcur : dcontains cur k = false := by simp [dcontains, hc]
        simp [hcur]
      · simp [hk]
    | some v =>
      rw [dcontains_dupdate]
      by_cases hk : k = e
      · subst hk
        have hcur : dcontains cur k = true := by simp [dcontains, hc]
        simp [hcur]
      · have hek : ¬(e = k) := fun hh => hk hh.symm
        simp [hek, hk]

theorem expectedSubset_contains (keys : List String) (cur : Dict)
    (k : String) :
    dcontains (expectedSubset keys cur) k =
      (decide (k ∈ keys) && dcontains cur k) := by
  have h := expectedSubset_go_contains cur keys [] k
  simpa [expectedSubset, dcontains, dlookup] using h

theorem expectedSubset_go_lookup (cur : Dict) (keys : List String)
    (d : Dict) (k : String) :
    dlookup (keys.foldl
      (fun d key =>
        match dlookup cur key with
        | some v => dupdate d (key, v)
        | none => d) d) k =
      (if decide (k ∈ keys) && dcontains cur k then dlookup cur k
       else dlookup d k) := by
  induction keys generalizing d with
  | nil => simp
  | cons e rest ih =>
    rw [List.foldl_cons, ih]
    cases hc : dlookup cur e with
    | none =>
      by_cases hk : k = e
      · subst hk
        have hcur : dcontains cur k = false := by simp [dcontains, hc]
        simp [hcur]
      · simp [hk]
    | some v =>
      rw [dlookup_dupdate]
      by_cases hk : k = e
      · subst hk
        have hcur : dcontains cur k = true := by simp [dcontains, hc]
        simp [hcur, hc]
      · have hek : ¬(e = k) := fun hh => hk hh.symm
        simp [hek, hk]

theorem expectedSubset_lookup (keys : List String) (cur : Dict)
    (k : String) :
    dlookup (expectedSubset keys cur) k =
      (if decide (k ∈ keys) && dcontains cur k then dlookup cur k
       else none) := by
  have h := expectedSubset_go_lookup cur keys [] k
  simpa [expectedSubset] using h

/-- Shape of a successful synthesizer run: once the container list is found
and the name match succeeds, the output document and the post-call state of
the input document are fixed by the inputs. -/
theorem default_ecs_task_definition_ok
    (expected_keys : List String) (family : String) (ctd : Dict)
    (image container_name : String)
    (environment command secrets : Option (List JVal)) (inc : Bool)
    (ccn : String) (vs : List JVal) (c : Dict) (rest : List Dict)
    (hvs : dlookup ctd "containerDefinitions" = some (JVal.arr vs))
    (hmatch : matchingContainers ccn vs = Except.ok (c :: rest)) :
    default_ecs_task_definition expected_keys family ctd image container_name
      environment command secrets inc ccn =
      Except.ok
        (dinsertAll (expectedSubset expected_keys ctd)
          [("family", JVal.s family),
           ("containerDefinitions", JVal.arr
             (synthContainers vs c image container_name command environment
               secrets inc))],
         if inc then
           dupdate ctd ("containerDefinitions", JVal.arr
             (synthContainers vs c image container_name command environment
               secrets inc))
         else ctd) := by
  unfold default_ecs_task_definition
  rw [hvs]
  show (do
    let matched ← matchingContainers ccn vs
    let container_definition ←
      match matched with
      | [] => Except.error PyErr.stopIteration
      | c :: _ => Except.ok c
    let task_definition := expectedSubset expected_keys ctd
    let container_definitions := synthContainers vs container_definition image
      container_name command environment secrets inc
    let current_after :=
      if inc then
        dupdate ctd ("containerDefinitions", JVal.arr container_definitions)
      else ctd
    let out := dinsertAll task_definition
      [("family", JVal.s family),
       ("containerDefinitions", JVal.arr container_definitions)]
    Except.ok (out, current_after)) = _
  rw [hmatch]
  rfl

/-! ### Lookups on the output document -/

theorem dlookup_out_family (td0 : Dict) (fam : String) (cv : JVal) :
    dlookup (dinsertAll td0
      [("family", JVal.s fam), ("containerDefinitions", cv)]) "family" =
      some (JVal.s fam) := by
  rw [dlookup_dinsertAll]
  simp [dlookup]

theorem dlookup_out_cdefs (td0 : Dict) (fam : String) (cv : JVal) :
    dlookup (dinsertAll td0
      [("family", JVal.s fam), ("containerDefinitions", cv)])
      "containerDefinitions" = some cv := by
  rw [dlookup_dinsertAll]
  simp [dlookup]

theorem dlookup_out_other (td0 : Dict) (fam : String) (cv : JVal)
    (k : String) (h1 : k ≠ "family") (h2 : k ≠ "containerDefinitions") :
    dlookup (dinsertAll td0
      [("family", JVal.s fam), ("containerDefinitions", cv)]) k =
      dlookup td0 k := by
  rw [dlookup_dinsertAll]
  have h1' : ¬("family" = k) := fun hh => h1 hh.symm
  have h2' : ¬("containerDefinitions" = k) := fun hh => h2 hh.symm
  simp [dlookup, h1', h2']

theorem dcontains_out (td0 : Dict) (fam : String) (cv : JVal) (k : String) :
    dcontains (dinsertAll td0
      [("family", JVal.s fam), ("containerDefinitions", cv)]) k =
      (dcontains td0 k ||
        (decide (k = "family") || decide (k = "containerDefinitions"))) := by
  rw [dcontains_dinsertAll]
  have hrev :
      ([("family", JVal.s fam), ("containerDefinitions", cv)] : Dict).reverse =
        [("containerDefinitions", cv), ("family", JVal.s fam)] := rfl
  rw [hrev]
  by_cases h1 : k = "family"
  · subst h1
    simp [dcontains, dlookup]
  · by_cases h2 : k = "containerDefinitions"
    · subst h2
      simp [dcontains, dlookup]
    · have h1' : ¬("family" = k) := fun hh => h1 hh.symm
      have h2' : ¬("containerDefinitions" = k) := fun hh => h2 hh.symm
      simp [dcontains, dlookup, h1', h2', h1, h2]

/-! ### Example documents used to instantiate the theorems -/

/-- Example current container: it has inherited `environment` and
`dependsOn` entries. -/
def cEx : Dict :=
  [("name", JVal.s "cur"), ("image", JVal.s "old"),
   ("environment",
     JVal.arr [JVal.obj [("name", JVal.s "X"), ("value", JVal.s "1")]]),
   ("dependsOn", JVal.arr [JVal.obj [("containerName", JVal.s "side")]])]

/-- Example sidecar container in the current task definition. -/
def sideEx : Dict := [("name", JVal.s "side"), ("image", JVal.s "logger")]

/-- Example current task definition with two containers and read-only
fields. -/
def ctdEx : Dict :=
  [("family", JVal.s "fam0"),
   ("containerDefinitions", JVal.arr [JVal.obj cEx, JVal.obj sideEx]),
   ("revision", JVal.s "3"), ("status", JVal.s "ACTIVE")]

/-- Example register-operation key set (the schema metadata of the external
client). -/
def expectedEx : List String :=
  ["family", "containerDefinitions", "cpu", "memory"]

/-- C2: for every current task definition whose container list has exactly
one container named as the current container, non-sidecar synthesis
succeeds without touching the input, and the output's container-definition
list is exactly one entry carrying the requested name and image, an empty
`entryPoint` and an empty `dependsOn`. -/
theorem synthesize_single_container_spec
    (expected_keys : List String) (family : String) (ctd : Dict)
    (image container_name : String)
    (environment command secrets : Option (List JVal))
    (ccn : String) (vs : List JVal) (c : Dict)
    (hvs : dlookup ctd "containerDefinitions" = some (JVal.arr vs))
    (hmatch : matchingContainers ccn vs = Except.ok [c])
    (hnd : (dkeys c).Nodup) :
    ∃ out nc,
      default_ecs_task_definition expected_keys family ctd image
        container_name environment command secrets false ccn =
        Except.ok (out, ctd) ∧
      dlookup out "containerDefinitions" = some (JVal.arr [JVal.obj nc]) ∧
      dlookup nc "name" = some (JVal.s container_name) ∧
      dlookup nc "image" = some (JVal.s image) ∧
      dlookup nc "entryPoint" = some (JVal.arr []) ∧
      dlookup nc "dependsOn" = some (JVal.arr []) := by
  refine ⟨_,
    newContainer c image container_name command environment secrets false,
    default_ecs_task_definition_ok expected_keys family ctd image
      container_name environment command secrets false ccn vs c [] hvs hmatch,
    dlookup_out_cdefs _ _ _,
    newContainer_name c hnd image container_name command environment
      secrets false,
    newContainer_image c hnd image container_name command environment
      secrets false,
    newContainer_entryPoint c hnd image container_name command environment
      secrets false,
    newContainer_dependsOn_cleared c hnd image container_name command
      environment secrets⟩

theorem synthesize_single_container_spec_witness :
    dlookup ctdEx "containerDefinitions" =
      some (JVal.arr [JVal.obj cEx, JVal.obj sideEx]) ∧
    matchingContainers "cur" [JVal.obj cEx, JVal.obj sideEx] =
      Except.ok [cEx] ∧
    (dkeys cEx).Nodup ∧
    (∃ out nc,
      default_ecs_task_definition expectedEx "newfam" ctdEx "img" "new"
        none none none false "cur" = Except.ok (out, ctdEx) ∧
      dlookup out "containerDefinitions" = some (JVal.arr [JVal.obj nc]) ∧
      dlookup nc "name" = some (JVal.s "new") ∧
      dlookup nc "image" = some (JVal.s "img") ∧
      dlookup nc "entryPoint" = some (JVal.arr []) ∧
      dlookup nc "dependsOn" = some (JVal.arr [])) :=
  ⟨rfl, rfl, by decide,
    synthesize_single_container_spec expectedEx "newfam" ctdEx "img" "new"
      none none none "cur" [JVal.obj cEx, JVal.obj sideEx] cEx rfl rfl
      (by decide)⟩

/-- C6: when no container in the current task definition's list is named as
the current container, synthesis fails with the `StopIteration` of
`next(iter([]))` (the spec's `ContainerNotFound`). -/
theorem synthesize_container_not_found_spec
    (expected_keys : List String) (family : String) (ctd : Dict)
    (image container_name : String)
    (environment command secrets : Option (List JVal))
    (include_sidecars : Bool) (ccn : String) (vs : List JVal)
    (hvs : dlookup ctd "containerDefinitions" = some (JVal.arr vs))
    (hno : ∀ v ∈ vs, ∃ c nm, v = JVal.obj c ∧
      dlookup c "name" = some nm ∧ nameEq nm ccn = false) :
    default_ecs_task_definition expected_keys family ctd image container_name
      environment command secrets include_sidecars ccn =
      Except.error PyErr.stopIteration := by
  unfold default_ecs_task_definition
  rw [hvs]
  show (do
    let matched ← matchingContainers ccn vs
    let container_definition ←
      match matched with
      | [] => Except.error PyErr.stopIteration
      | c :: _ => Except.ok c
    let task_definition := expectedSubset expected_keys ctd
    let container_definitions := synthContainers vs container_definition image
      container_name command environment secrets include_sidecars
    let current_after :=
      if include_sidecars then
        dupdate ctd ("containerDefinitions", JVal.arr container_definitions)
      else ctd
    let out := dinsertAll task_definition
      [("family", JVal.s family),
       ("containerDefinitions", JVal.arr container_definitions)]
    Except.ok (out, current_after)) = _
  rw [matchingContainers_no_match ccn vs hno]
  rfl

theorem synthesize_container_not_found_spec_witness :
    dlookup ctdEx "containerDefinitions" =
      some (JVal.arr [JVal.obj cEx, JVal.obj sideEx]) ∧
    default_ecs_task_definition expectedEx "newfam" ctdEx "img" "new"
      none none none false "absent" = Except.error PyErr.stopIteration := by
  refine ⟨rfl, ?_⟩
  apply synthesize_container_not_found_spec expectedEx "newfam" ctdEx "img"
    "new" none none none false "absent" [JVal.obj cEx, JVal.obj sideEx] rfl
  intro v hv
  rcases List.mem_cons.mp hv with h | h
  · exact ⟨cEx, JVal.s "cur", h, rfl, rfl⟩
  · rcases List.mem_cons.mp h with h1 | h1
    · exact ⟨sideEx, JVal.s "side", h1, rfl, rfl⟩
    · simp at h1

/-- C7: on success the output document's top-level keys are exactly the
current document's keys that lie in the register-operation key set, plus
`family` and `containerDefinitions`, which carry the newly computed values;
every other key of the output carries the current document's value
verbatim, and keys outside the accepted set (revision, status, ...) never
appear. -/
theorem synthesize_key_filter_spec
    (expected_keys : List String) (family : String) (ctd : Dict)
    (image container_name : String)
    (environment command secrets : Option (List JVal))
    (include_sidecars : Bool) (ccn : String) (vs : List JVal) (c : Dict)
    (rest : List Dict)
    (hvs : dlookup ctd "containerDefinitions" = some (JVal.arr vs))
    (hmatch : matchingContainers ccn vs = Except.ok (c :: rest)) :
    ∃ out after,
      default_ecs_task_definition expected_keys family ctd image
        container_name environment command secrets include_sidecars ccn =
        Except.ok (out, after) ∧
      (∀ k, dcontains out k = true ↔
        (k = "family" ∨ k = "containerDefinitions" ∨
          (k ∈ expected_keys ∧ dcontains ctd k = true))) ∧
      dlookup out "family" = some (JVal.s family) ∧
      (∃ cs, dlookup out "containerDefinitions" = some (JVal.arr cs)) ∧
      (∀ k, k ≠ "family" → k ≠ "containerDefinitions" →
        dlookup out k =
          (if k ∈ expected_keys then dlookup ctd k else none)) := by
  refine ⟨_, _,
    default_ecs_task_definition_ok expected_keys family ctd image
      container_name environment command secrets include_sidecars ccn vs c
      rest hvs hmatch, ?_, dlookup_out_family _ _ _,
    ⟨_, dlookup_out_cdefs _ _ _⟩, ?_⟩
  · intro k
    rw [dcontains_out, expectedSubset_contains]
    simp only [Bool.or_eq_true, Bool.and_eq_true, decide_eq_true_eq]
    tauto
  · intro k h1 h2
    rw [dlookup_out_other _ _ _ _ h1 h2, expectedSubset_lookup]
    by_cases hk : k ∈ expected_keys
    · cases hc : dcontains ctd k with
      | true => simp [hk, hc]
      | false =>
        have hnone : dlookup ctd k = none := by
          have := hc
          rw [dcontains] at this
          exact Option.not_isSome_iff_eq_none.mp (by simp [this])
        simp [hk, hc, hnone]
    · simp [hk]

theorem synthesize_key_filter_spec_witness :
    dlookup ctdEx "containerDefinitions" =
      some (JVal.arr [JVal.obj cEx, JVal.obj sideEx]) ∧
    matchingContainers "cur" [JVal.obj cEx, JVal.obj sideEx] =
      Except.ok [cEx] ∧
    (∃ out after,
      default_ecs_task_definition expectedEx "newfam" ctdEx "img" "new"
        none none none false "cur" = Except.ok (out, after) ∧
      (∀ k, dcontains out k = true ↔
        (k = "family" ∨ k = "containerDefinitions" ∨
          (k ∈ expectedEx ∧ dcontains ctdEx k = true))) ∧
      dlookup out "family" = some (JVal.s "newfam") ∧
      (∃ cs, dlookup out "containerDefinitions" = some (JVal.arr cs)) ∧
      (∀ k, k ≠ "family" → k ≠ "containerDefinitions" →
        dlookup out k =
          (if k ∈ expectedEx then dlookup ctdEx k else none))) :=
  ⟨rfl, rfl,
    synthesize_key_filter_spec expectedEx "newfam" ctdEx "img" "new"
      none none none false "cur" [JVal.obj cEx, JVal.obj sideEx] cEx []
      rfl rfl⟩

/-- C5: in sidecar mode the output container-definition list is the current
list with the matched entry removed and the synthesized entry appended, so
its length equals the input length, and the synthesized entry's
`dependsOn` is inherited rather than cleared. -/
theorem synthesize_sidecar_count_spec
    (expected_keys : List String) (family : String) (ctd : Dict)
    (image container_name : String)
    (environment command secrets : Option (List JVal))
    (ccn : String) (vs : List JVal) (c : Dict) (rest : List Dict)
    (hvs : dlookup ctd "containerDefinitions" = some (JVal.arr vs))
    (hmatch : matchingContainers ccn vs = Except.ok (c :: rest))
    (hnd : (dkeys c).Nodup) :
    ∃ out after cs,
      default_ecs_task_definition expected_keys family ctd image
        container_name environment command secrets true ccn =
        Except.ok (out, after) ∧
      dlookup out "containerDefinitions" = some (JVal.arr cs) ∧
      cs = removeFirst vs (JVal.obj c) ++
        [JVal.obj (newContainer c image container_name command environment
          secrets true)] ∧
      cs.length = vs.length ∧
      dlookup (newContainer c image container_name command environment
        secrets true) "dependsOn" = dlookup c "dependsOn" := by
  have hmem : JVal.obj c ∈ vs :=
    matchingContainers_mem ccn vs (c :: rest) hmatch c (by simp)
  refine ⟨_, _, _,
    default_ecs_task_definition_ok expected_keys family ctd image
      container_name environment command secrets true ccn vs c rest hvs
      hmatch, dlookup_out_cdefs _ _ _, rfl, ?_,
    newContainer_dependsOn_kept c hnd image container_name command
      environment secrets⟩
  show (synthContainers vs c image container_name command environment
    secrets true).length = vs.length
  have hpos : 0 < vs.length := List.length_pos.mpr (by
    intro hnil
    rw [hnil] at hmem
    simp at hmem)
  have hlen := removeFirst_length vs (JVal.obj c) hmem
  show (removeFirst vs (JVal.obj c) ++
    [JVal.obj (newContainer c image container_name command environment
      secrets true)]).length = vs.length
  rw [List.length_append, hlen]
  simp
  omega

/-! ### C3 and C4: inherited keys and the in-place sidecar mutation -/

/-- First container definition of a synthesizer result's output document,
the observation used to exhibit concrete counterexamples. -/
def firstOutContainer (r : Except PyErr (Dict × Dict)) : Option Dict :=
  match r with
  | Except.ok (out, _) =>
      match dlookup out "containerDefinitions" with
      | some (JVal.arr (JVal.obj c :: _)) => some c
      | _ => none
  | Except.error _ => none

/-- Name of the first container of a document's `containerDefinitions`
list. -/
def firstContainerName (d : Dict) : Option JVal :=
  match dlookup d "containerDefinitions" with
  | some (JVal.arr (JVal.obj c :: _)) => dlookup c "name"
  | _ => none

theorem synthesize_env_inherited_counterexample :
    (firstOutContainer (default_ecs_task_definition expectedEx "newfam"
      ctdEx "img" "new" none none none false "cur")).map
        (fun c => dcontains c "environment") = some true := rfl

/-- C3 as amended: on success, a non-empty `environment` (resp. `secrets`)
argument lands in the synthesized container verbatim, while an empty or
absent argument leaves the synthesized container's entry exactly as it was
inherited from the matched current container (present with the old value
iff the current container had one). -/
theorem synthesize_env_secrets_spec
    (expected_keys : List String) (family : String) (ctd : Dict)
    (image container_name : String)
    (environment command secrets : Option (List JVal))
    (include_sidecars : Bool) (ccn : String) (vs : List JVal) (c : Dict)
    (rest : List Dict)
    (hvs : dlookup ctd "containerDefinitions" = some (JVal.arr vs))
    (hmatch : matchingContainers ccn vs = Except.ok (c :: rest))
    (hnd : (dkeys c).Nodup) :
    (∃ out after,
      default_ecs_task_definition expected_keys family ctd image
        container_name environment command secrets include_sidecars ccn =
        Except.ok (out, after)) ∧
    dlookup (newContainer c image container_name command environment
      secrets include_sidecars) "environment" =
      (match environment with
       | some e => if e.isEmpty then dlookup c "environment"
                   else some (JVal.arr e)
       | none => dlookup c "environment") ∧
    dlookup (newContainer c image container_name command environment
      secrets include_sidecars) "secrets" =
      (match secrets with
       | some sl => if sl.isEmpty then dlookup c "secrets"
                    else some (JVal.arr sl)
       | none => dlookup c "secrets") :=
  ⟨⟨_, _, default_ecs_task_definition_ok expected_keys family ctd image
      container_name environment command secrets include_sidecars ccn vs c
      rest hvs hmatch⟩,
   newContainer_environment c hnd image container_name command environment
     secrets include_sidecars,
   newContainer_secrets c hnd image container_name command environment
     secrets include_sidecars⟩

theorem synthesize_env_secrets_spec_witness :
    dlookup ctdEx "containerDefinitions" =
      some (JVal.arr [JVal.obj cEx, JVal.obj sideEx]) ∧
    matchingContainers "cur" [JVal.obj cEx, JVal.obj sideEx] =
      Except.ok [cEx] ∧
    ((∃ out after,
      default_ecs_task_definition expectedEx "newfam" ctdEx "img" "new"
        (some [JVal.obj [("name", JVal.s "E"), ("value", JVal.s "2")]])
        none none false "cur" = Except.ok (out, after)) ∧
    dlookup (newContainer cEx "img" "new" none
      (some [JVal.obj [("name", JVal.s "E"), ("value", JVal.s "2")]])
      none false) "environment" =
      (match (some [JVal.obj [("name", JVal.s "E"), ("value", JVal.s "2")]] :
          Option (List JVal)) with
       | some e => if e.isEmpty then dlookup cEx "environment"
                   else some (JVal.arr e)
       | none => dlookup cEx "environment") ∧
    dlookup (newContainer cEx "img" "new" none
      (some [JVal.obj [("name", JVal.s "E"), ("value", JVal.s "2")]])
      none false) "secrets" =
      (match (none : Option (List JVal)) with
       | some sl => if sl.isEmpty then dlookup cEx "secrets"
                    else some (JVal.arr sl)
       | none => dlookup cEx "secrets")) :=
  ⟨rfl, rfl,
    synthesize_env_secrets_spec expectedEx "newfam" ctdEx "img" "new"
      (some [JVal.obj [("name", JVal.s "E"), ("value", JVal.s "2")]])
      none none false "cur" [JVal.obj cEx, JVal.obj sideEx] cEx []
      rfl rfl (by decide)⟩

/-- Synthesized container of the sidecar-mode counterexample run. -/
def newCEx : Dict := newContainer cEx "img" "new" none none none true

theorem synthesize_sidecar_mutation_counterexample :
    (default_ecs_task_definition expectedEx "newfam" ctdEx "img" "new" none
        none none true "cur").map (fun p => firstContainerName p.2) ≠
      Except.ok (firstContainerName ctdEx) := by
  have hok := default_ecs_task_definition_ok expectedEx "newfam" ctdEx "img"
    "new" none none none true "cur" [JVal.obj cEx, JVal.obj sideEx] cEx []
    rfl rfl
  have hrf : removeFirst [JVal.obj cEx, JVal.obj sideEx] (JVal.obj cEx) =
      [JVal.obj sideEx] := by
    simp [removeFirst, JVal.beq_refl]
  have hsyn : synthContainers [JVal.obj cEx, JVal.obj sideEx] cEx "img" "new"
      none none none true = [JVal.obj sideEx, JVal.obj newCEx] := by
    show removeFirst [JVal.obj cEx, JVal.obj sideEx] (JVal.obj cEx) ++
      [JVal.obj newCEx] = _
    rw [hrf]
    rfl
  rw [hok, hsyn]
  intro h
  have h1 : firstContainerName (dupdate ctdEx ("containerDefinitions",
      JVal.arr [JVal.obj sideEx, JVal.obj newCEx])) =
      firstContainerName ctdEx := by
    injection h
  rw [show firstContainerName (dupdate ctdEx ("containerDefinitions",
      JVal.arr [JVal.obj sideEx, JVal.obj newCEx])) = some (JVal.s "side")
    from rfl] at h1
  rw [show firstContainerName ctdEx = some (JVal.s "cur") from rfl] at h1
  have h2 : JVal.s "side" = JVal.s "cur" := Option.some.inj h1
  have h3 : ("side" : String) = "cur" := by injection h2
  exact absurd h3 (by decide)

/-- C4 as amended: synthesis is deterministic (the result is a function of
the inputs), and a non-sidecar call leaves the input document unchanged;
a sidecar call, however, mutates the input document in place: its
`containerDefinitions` entry is overwritten with the output's
container-definition list, while every other entry of the input is
untouched. -/
theorem synthesize_frame_spec
    (expected_keys : List String) (family : String) (ctd : Dict)
    (image container_name : String)
    (environment command secrets : Option (List JVal))
    (include_sidecars : Bool) (ccn : String) (vs : List JVal) (c : Dict)
    (rest : List Dict)
    (hvs : dlookup ctd "containerDefinitions" = some (JVal.arr vs))
    (hmatch : matchingContainers ccn vs = Except.ok (c :: rest)) :
    ∃ out after,
      default_ecs_task_definition expected_keys family ctd image
        container_name environment command secrets include_sidecars ccn =
        Except.ok (out, after) ∧
      (∀ out2 after2,
        default_ecs_task_definition expected_keys family ctd image
          container_name environment command secrets include_sidecars ccn =
          Except.ok (out2, after2) → out2 = out ∧ after2 = after) ∧
      (include_sidecars = false → after = ctd) ∧
      (∀ k, k ≠ "containerDefinitions" → dlookup after k = dlookup ctd k) ∧
      (include_sidecars = true →
        dlookup after "containerDefinitions" =
          dlookup out "containerDefinitions") := by
  have hok := default_ecs_task_definition_ok expected_keys family ctd image
    container_name environment command secrets include_sidecars ccn vs c
    rest hvs hmatch
  refine ⟨_, _, hok, ?_, ?_, ?_, ?_⟩
  · intro out2 after2 h2
    rw [hok] at h2
    have := (Except.ok.inj h2).symm
    exact ⟨congrArg Prod.fst this, congrArg Prod.snd this⟩
  · intro hinc
    subst hinc
    rfl
  · intro k hk
    cases include_sidecars with
    | false => rfl
    | true =>
      show dlookup (dupdate ctd ("containerDefinitions", _)) k = dlookup ctd k
      rw [dlookup_dupdate]
      have : ¬("containerDefinitions" = k) := fun hh => hk hh.symm
      rw [if_neg this]
  · intro hinc
    subst hinc
    show dlookup (dupdate ctd ("containerDefinitions", _))
      "containerDefinitions" = _
    rw [dlookup_dupdate, if_pos rfl, dlookup_out_cdefs]

theorem synthesize_frame_spec_witness :
    dlookup ctdEx "containerDefinitions" =
      some (JVal.arr [JVal.obj cEx, JVal.obj sideEx]) ∧
    matchingContainers "cur" [JVal.obj cEx, JVal.obj sideEx] =
      Except.ok [cEx] ∧
    (∃ out after,
      default_ecs_task_definition expectedEx "newfam" ctdEx "img" "new"
        none none none false "cur" = Except.ok (out, after) ∧
      (∀ out2 after2,
        default_ecs_task_definition expectedEx "newfam" ctdEx "img" "new"
          none none none false "cur" = Except.ok (out2, after2) →
          out2 = out ∧ after2 = after) ∧
      (false = false → after = ctdEx) ∧
      (∀ k, k ≠ "containerDefinitions" →
        dlookup after k = dlookup ctdEx k) ∧
      (false = true →
        dlookup after "containerDefinitions" =
          dlookup out "containerDefinitions")) :=
  ⟨rfl, rfl,
    synthesize_frame_spec expectedEx "newfam" ctdEx "img" "new" none none
      none false "cur" [JVal.obj cEx, JVal.obj sideEx] cEx [] rfl rfl⟩

theorem synthesize_sidecar_count_spec_witness :
    dlookup ctdEx "containerDefinitions" =
      some (JVal.arr [JVal.obj cEx, JVal.obj sideEx]) ∧
    matchingContainers "cur" [JVal.obj cEx, JVal.obj sideEx] =
      Except.ok [cEx] ∧
    (dkeys cEx).Nodup ∧
    (∃ out after cs,
      default_ecs_task_definition expectedEx "newfam" ctdEx "img" "new"
        none none none true "cur" = Except.ok (out, after) ∧
      dlookup out "containerDefinitions" = some (JVal.arr cs) ∧
      cs = removeFirst [JVal.obj cEx, JVal.obj sideEx] (JVal.obj cEx) ++
        [JVal.obj (newContainer cEx "img" "new" none none none true)] ∧
      cs.length = ([JVal.obj cEx, JVal.obj sideEx] : List JVal).length ∧
      dlookup (newContainer cEx "img" "new" none none none true) "dependsOn"
        = dlookup cEx "dependsOn") :=
  ⟨rfl, rfl, by decide,
    synthesize_sidecar_count_spec expectedEx "newfam" ctdEx "img" "new"
      none none none "cur" [JVal.obj cEx, JVal.obj sideEx] cEx [] rfl rfl
      (by decide)⟩

/-! ## Metadata Resolver (`current_ecs_task_metadata`,
`current_ecs_container_name`)

Source lines 160-186.  `_container_metadata_uri` returns
`os.environ.get("ECS_CONTAINER_METADATA_URI_V4")`, which is `None` when the
environment variable is unset.  `current_ecs_task_metadata` then evaluates
`None + "/task"`, a `TypeError`; `current_ecs_container_name` calls
`requests.get(None)`, which raises `MissingSchema`.  The metadata endpoint
(an external collaborator) is modelled as a total function from the
requested address to the decoded JSON body. -/

/-- Source lines 160-163: the resolver's result record.  The dataclass
annotates both fields as `str`, but the values come from `response.get` and
are stored unchecked, so an absent field yields `None`; the embedding types
them as optional. -/
structure CurrentEcsTaskMetadata where
  cluster : Option JVal
  task_arn : Option JVal

/-- Source lines 174-186: read the metadata address from the environment;
`None` when the variable is unset. -/
def _container_metadata_uri (env : Option String) : Option String := env

/-- Source lines 165-171: query task-level metadata.  With the address
unset, `None + "/task"` raises `TypeError`; otherwise the `Cluster` and
`TaskARN` fields are read with `.get` and stored as-is, absent fields
included. -/
def current_ecs_task_metadata (env : Option String)
    (http : String → Dict) : Except PyErr CurrentEcsTaskMetadata :=
  match _container_metadata_uri env with
  | none => Except.error PyErr.typeError
  | some uri =>
      let response := http (uri ++ "/task")
      Except.ok { cluster := dlookup response "Cluster",
                  task_arn := dlookup response "TaskARN" }

/-- Source lines 189-190: query container-level metadata and index its
`Name` field.  With the address unset, `requests.get(None)` raises
`MissingSchema`; an absent `Name` raises `KeyError`. -/
def current_ecs_container_name (env : Option String)
    (http : String → Dict) : Except PyErr JVal :=
  match _container_metadata_uri env with
  | none => Except.error PyErr.missingSchema
  | some uri =>
      match dlookup (http uri) "Name" with
      | some v => Except.ok v
      | none => Except.error (PyErr.keyError "Name")

theorem metadata_missing_fields_counterexample :
    (current_ecs_task_metadata (some "http://md") (fun _ => [])).isOk =
      true := rfl

/-- C9 as amended: with the metadata-address variable unset both queries
fail (with the generic `TypeError` of `None + "/task"`, respectively the
`MissingSchema` of `requests.get(None)` - no distinct unavailability
error); an absent container name makes the container-level query fail with
`KeyError`; absent cluster or task-reference fields, however, cause no
failure - the metadata record is returned with those fields null. -/
theorem metadata_resolver_spec (http : String → Dict) :
    current_ecs_task_metadata none http = Except.error PyErr.typeError ∧
    current_ecs_container_name none http =
      Except.error PyErr.missingSchema ∧
    (∀ uri, dlookup (http uri) "Name" = none →
      current_ecs_container_name (some uri) http =
        Except.error (PyErr.keyError "Name")) ∧
    (∀ uri, current_ecs_task_metadata (some uri) http =
      Except.ok { cluster := dlookup (http (uri ++ "/task")) "Cluster",
                  task_arn := dlookup (http (uri ++ "/task")) "TaskARN" }) := by
  refine ⟨rfl, rfl, ?_, fun _ => rfl⟩
  intro uri hname
  show (match dlookup (http uri) "Name" with
    | some v => Except.ok v
    | none => Except.error (PyErr.keyError "Name")) = _
  rw [hname]

theorem metadata_resolver_spec_witness :
    dlookup ((fun _ => [("Cluster", JVal.s "c1")] : String → Dict) "u")
      "Name" = none ∧
    current_ecs_container_name (some "u")
      (fun _ => [("Cluster", JVal.s "c1")]) =
      Except.error (PyErr.keyError "Name") ∧
    current_ecs_task_metadata none
      (fun _ => [("Cluster", JVal.s "c1")]) =
      Except.error PyErr.typeError :=
  ⟨rfl,
   (metadata_resolver_spec (fun _ => [("Cluster", JVal.s "c1")])).2.2.1
     "u" rfl,
   (metadata_resolver_spec (fun _ => [("Cluster", JVal.s "c1")])).1⟩

/-! ## DagsterEcsTaskConfig and its task-definition document

Source lines 11-68.  The dataclass carries the launch intent;
`task_definition()` renders the register-task-definition request
document. -/

/-- Python truthiness of an optional string (`None` and `""` are falsy). -/
def optStrTruthy : Option String → Bool
  | some s => !(s == "")
  | none => false

/-- Python truthiness of an optional list (`None` and `[]` are falsy). -/
def optJListTruthy : Option (List JVal) → Bool
  | some l => !l.isEmpty
  | none => false

/-- Python truthiness of an optional dictionary. -/
def optDictTruthy : Option Dict → Bool
  | some d => !d.isEmpty
  | none => false

/-- Value of an optional string field inside a document: `null` when
absent (Python passes `None` through). -/
def optStrJVal : Option String → JVal
  | some s => JVal.s s
  | none => JVal.null

/-- Source lines 11-27: the launch-configuration dataclass.
`assign_public_ip` is annotated `bool` in the source but every producer
and consumer uses the `"ENABLED"`/`"DISABLED"` sentinel strings, so the
embedding types it by its actual use; `secrets`/`environment` are lists of
name/value dictionaries and `log_configuration` a dictionary. -/
structure DagsterEcsTaskConfig where
  image : String
  container_name : String
  command : Option String
  family : String
  cluster : String
  subnets : List String
  security_groups : List String
  execution_role_arn : Option String
  task_role_arn : Option String
  assign_public_ip : String
  secrets : Option (List JVal)
  environment : Option (List JVal)
  log_configuration : Option Dict

/-- Source lines 48-51: `\x7b"logConfiguration": ...\x7d if self.log_configuration
else \x7b\x7d`. -/
def cfgLogDict (lc : Option Dict) : Dict :=
  match lc with
  | some d => if d.isEmpty then [] else [("logConfiguration", JVal.obj d)]
  | none => []

/-- Source line 53: `\x7b"command": self.command\x7d if self.command else \x7b\x7d`
(the dataclass types `command` as an optional string). -/
def cfgCmdDict (cmd : Option String) : Dict :=
  match cmd with
  | some cd => if cd == "" then [] else [("command", JVal.s cd)]
  | none => []

/-- Source lines 43-56: the single container definition of the rendered
document, a `merge_dicts` of the mandatory name/image pair with the
conditional log-configuration, command, secrets and environment entries. -/
def taskDefContainer (cfg : DagsterEcsTaskConfig) : Dict :=
  merge_dicts
    [[("name", JVal.s cfg.container_name), ("image", JVal.s cfg.image)],
     cfgLogDict cfg.log_configuration,
     cfgCmdDict cfg.command,
     secDict cfg.secrets,
     envDict cfg.environment]

/-- Source lines 38-62: the keyword dictionary of the request document
before the conditional `taskRoleArn` update. -/
def taskDefKwargs (cfg : DagsterEcsTaskConfig) : Dict :=
  [("family", JVal.s cfg.family),
   ("requiresCompatibilities", JVal.arr [JVal.s "FARGATE"]),
   ("networkMode", JVal.s "awsvpc"),
   ("containerDefinitions", JVal.arr [JVal.obj (taskDefContainer cfg)]),
   ("executionRoleArn", optStrJVal cfg.execution_role_arn),
   ("cpu", JVal.s "256"),
   ("memory", JVal.s "512")]

/-- Source lines 37-68: `task_definition()`.  `taskRoleArn` is added by
`kwargs.update` only when the task role is truthy. -/
def DagsterEcsTaskConfig.task_definition (cfg : DagsterEcsTaskConfig) :
    Dict :=
  if optStrTruthy cfg.task_role_arn then
    dupdate (taskDefKwargs cfg) ("taskRoleArn", optStrJVal cfg.task_role_arn)
  else taskDefKwargs cfg

theorem dcontains_eq_keys (d : Dict) (k : String) :
    dcontains d k = decide (k ∈ dkeys d) := by
  rw [dcontains]
  cases h : dlookup d k with
  | none => simp [(dlookup_eq_none_iff d k).mp h]
  | some v =>
    have hmem : ¬(k ∉ dkeys d) := by
      intro hm
      rw [(dlookup_eq_none_iff d k).mpr hm] at h
      cases h
    simp [not_not.mp hmem]

theorem dcontains_reverse (d : Dict) (k : String) :
    dcontains d.reverse k = dcontains d k := by
  rw [dcontains_eq_keys, dcontains_eq_keys]
  have hk : dkeys d.reverse = (dkeys d).reverse := by
    simp [dkeys]
  rw [hk]
  simp

theorem dcontains_dinsertAll_plain (d e : Dict) (k : String) :
    dcontains (dinsertAll d e) k = (dcontains d k || dcontains e k) := by
  rw [dcontains_dinsertAll, dcontains_reverse]

theorem dcontains_cfgLogDict (lc : Option Dict) (k : String) :
    dcontains (cfgLogDict lc) k =
      (optDictTruthy lc && decide ("logConfiguration" = k)) := by
  rcases lc with _ | d
  · simp [cfgLogDict, optDictTruthy, dcontains]
  · by_cases hd : d.isEmpty <;>
      simp [cfgLogDict, optDictTruthy, hd, dcontains, dlookup] <;>
      by_cases hk : "logConfiguration" = k <;> simp [hk]

theorem dcontains_cfgCmdDict (cmd : Option String) (k : String) :
    dcontains (cfgCmdDict cmd) k =
      (optStrTruthy cmd && decide ("command" = k)) := by
  rcases cmd with _ | cd
  · simp [cfgCmdDict, optStrTruthy, dcontains]
  · by_cases hc : cd == "" <;>
      simp [cfgCmdDict, optStrTruthy, hc, dcontains, dlookup] <;>
      by_cases hk : "command" = k <;> simp [hk]

theorem dcontains_secDict (secrets : Option (List JVal)) (k : String) :
    dcontains (secDict secrets) k =
      (optJListTruthy secrets && decide ("secrets" = k)) := by
  rcases secrets with _ | sl
  · simp [secDict, optJListTruthy, dcontains]
  · by_cases hs : sl.isEmpty <;>
      simp [secDict, optJListTruthy, hs, dcontains, dlookup] <;>
      by_cases hk : "secrets" = k <;> simp [hk]

theorem dcontains_envDict (environment : Option (List JVal)) (k : String) :
    dcontains (envDict environment) k =
      (optJListTruthy environment && decide ("environment" = k)) := by
  rcases environment with _ | e
  · simp [envDict, optJListTruthy, dcontains]
  · by_cases he : e.isEmpty <;>
      simp [envDict, optJListTruthy, he, dcontains, dlookup] <;>
      by_cases hk : "environment" = k <;> simp [hk]

theorem dcontains_taskDefContainer (cfg : DagsterEcsTaskConfig)
    (k : String) :
    dcontains (taskDefContainer cfg) k =
      (dcontains [("name", JVal.s cfg.container_name),
          ("image", JVal.s cfg.image)] k ||
        dcontains (cfgLogDict cfg.log_configuration) k ||
        dcontains (cfgCmdDict cfg.command) k ||
        dcontains (secDict cfg.secrets) k ||
        dcontains (envDict cfg.environment) k) := by
  show dcontains
    (dinsertAll (dinsertAll (dinsertAll (dinsertAll (dinsertAll []
      [("name", JVal.s cfg.container_name), ("image", JVal.s cfg.image)])
      (cfgLogDict cfg.log_configuration)) (cfgCmdDict cfg.command))
      (secDict cfg.secrets)) (envDict cfg.environment)) k = _
  rw [dcontains_dinsertAll_plain, dcontains_dinsertAll_plain,
    dcontains_dinsertAll_plain, dcontains_dinsertAll_plain,
    dcontains_dinsertAll_plain]
  simp [dcontains, Bool.or_assoc]

theorem task_definition_lookup_ne (cfg : DagsterEcsTaskConfig) (k : String)
    (h : k ≠ "taskRoleArn") :
    dlookup cfg.task_definition k = dlookup (taskDefKwargs cfg) k := by
  unfold DagsterEcsTaskConfig.task_definition
  by_cases htr : optStrTruthy cfg.task_role_arn = true
  · rw [if_pos htr, dlookup_dupdate, if_neg (fun hh => h hh.symm)]
  · rw [if_neg htr]

/-- C10: the rendered task-definition document always fixes
`requiresCompatibilities` to `["FARGATE"]`, `networkMode` to `"awsvpc"`,
`cpu` to `"256"` and `memory` to `"512"`; `executionRoleArn` is always
present (null when the role is unset) while `taskRoleArn` appears exactly
when the task role is truthy; and the single container definition carries
`command`, `secrets`, `environment` and `logConfiguration` exactly when
the corresponding configuration field is truthy (non-empty). -/
theorem task_definition_shape_spec (cfg : DagsterEcsTaskConfig) :
    dlookup cfg.task_definition "requiresCompatibilities" =
      some (JVal.arr [JVal.s "FARGATE"]) ∧
    dlookup cfg.task_definition "networkMode" = some (JVal.s "awsvpc") ∧
    dlookup cfg.task_definition "cpu" = some (JVal.s "256") ∧
    dlookup cfg.task_definition "memory" = some (JVal.s "512") ∧
    dlookup cfg.task_definition "executionRoleArn" =
      some (optStrJVal cfg.execution_role_arn) ∧
    dcontains cfg.task_definition "taskRoleArn" =
      optStrTruthy cfg.task_role_arn ∧
    dlookup cfg.task_definition "containerDefinitions" =
      some (JVal.arr [JVal.obj (taskDefContainer cfg)]) ∧
    dcontains (taskDefContainer cfg) "command" = optStrTruthy cfg.command ∧
    dcontains (taskDefContainer cfg) "secrets" =
      optJListTruthy cfg.secrets ∧
    dcontains (taskDefContainer cfg) "environment" =
      optJListTruthy cfg.environment ∧
    dcontains (taskDefContainer cfg) "logConfiguration" =
      optDictTruthy cfg.log_configuration := by
  refine ⟨?_, ?_, ?_, ?_, ?_, ?_, ?_, ?_, ?_, ?_, ?_⟩
  · rw [task_definition_lookup_ne cfg _ (by decide)]
    simp [taskDefKwargs, dlookup]
  · rw [task_definition_lookup_ne cfg _ (by decide)]
    simp [taskDefKwargs, dlookup]
  · rw [task_definition_lookup_ne cfg _ (by decide)]
    simp [taskDefKwargs, dlookup]
  · rw [task_definition_lookup_ne cfg _ (by decide)]
    simp [taskDefKwargs, dlookup]
  · rw [task_definition_lookup_ne cfg _ (by decide)]
    simp [taskDefKwargs, dlookup]
  · unfold DagsterEcsTaskConfig.task_definition
    by_cases htr : optStrTruthy cfg.task_role_arn = true
    · rw [if_pos htr, dcontains_dupdate]
      simp [htr]
    · rw [if_neg htr]
      have : optStrTruthy cfg.task_role_arn = false :=
        Bool.not_eq_true _ ▸ Bool.of_not_eq_true htr
      rw [this]
      simp [taskDefKwargs, dcontains, dlookup]
  · rw [task_definition_lookup_ne cfg _ (by decide)]
    simp [taskDefKwargs, dlookup]
  · rw [dcontains_taskDefContainer, dcontains_cfgLogDict,
      dcontains_cfgCmdDict, dcontains_secDict, dcontains_envDict]
    simp [dcontains, dlookup]
  · rw [dcontains_taskDefContainer, dcontains_cfgLogDict,
      dcontains_cfgCmdDict, dcontains_secDict, dcontains_envDict]
    simp [dcontains, dlookup]
  · rw [dcontains_taskDefContainer, dcontains_cfgLogDict,
      dcontains_cfgCmdDict, dcontains_secDict, dcontains_envDict]
    simp [dcontains, dlookup]
  · rw [dcontains_taskDefContainer, dcontains_cfgLogDict,
      dcontains_cfgCmdDict, dcontains_secDict, dcontains_envDict]
    simp [dcontains, dlookup]

/-- Example launch configuration instantiating `task_definition_shape_spec`. -/
def cfgEx : DagsterEcsTaskConfig :=
  { image := "i", container_name := "c", command := none, family := "f",
    cluster := "cl", subnets := ["s1"], security_groups := ["g"],
    execution_role_arn := some "er", task_role_arn := none,
    assign_public_ip := "DISABLED", secrets := none,
    environment := some [JVal.obj [("name", JVal.s "E"),
      ("value", JVal.s "2")]],
    log_configuration := none }

theorem task_definition_shape_spec_witness :
    dlookup cfgEx.task_definition "requiresCompatibilities" =
      some (JVal.arr [JVal.s "FARGATE"]) ∧
    dlookup cfgEx.task_definition "networkMode" = some (JVal.s "awsvpc") ∧
    dlookup cfgEx.task_definition "cpu" = some (JVal.s "256") ∧
    dlookup cfgEx.task_definition "memory" = some (JVal.s "512") ∧
    dlookup cfgEx.task_definition "executionRoleArn" =
      some (optStrJVal cfgEx.execution_role_arn) ∧
    dcontains cfgEx.task_definition "taskRoleArn" =
      optStrTruthy cfgEx.task_role_arn ∧
    dlookup cfgEx.task_definition "containerDefinitions" =
      some (JVal.arr [JVal.obj (taskDefContainer cfgEx)]) ∧
    dcontains (taskDefContainer cfgEx) "command" =
      optStrTruthy cfgEx.command ∧
    dcontains (taskDefContainer cfgEx) "secrets" =
      optJListTruthy cfgEx.secrets ∧
    dcontains (taskDefContainer cfgEx) "environment" =
      optJListTruthy cfgEx.environment ∧
    dcontains (taskDefContainer cfgEx) "logConfiguration" =
      optDictTruthy cfgEx.log_configuration :=
  task_definition_shape_spec cfgEx

/-! ## Task Config Projector (`current_ecs_task_config`)

Source lines 211-251.  The function walks the observed task's network
attachments, collects subnet ids and network-interface ids from the
`ElasticNetworkInterface` attachments' details, queries each interface for
its public-IP association and security groups, and then constructs a
`DagsterEcsTaskConfig`.  The constructor call at line 238 omits the
dataclass's `command` and `log_configuration` fields, which have no
defaults, so after evaluating its arguments it raises `TypeError` (two
missing required arguments) instead of returning the config. -/

/-- Modelled from the spec (external collaborator): a security-group
record of a network interface; only its `GroupId` field is read. -/
structure SecGroup where
  GroupId : String

/-- Modelled from the spec (external collaborator): the network-interface
query result, a public-IP association attribute (a dictionary, possibly
absent) and the security-group membership list. -/
structure NetworkInterface where
  association_attribute : Option Dict
  groups : List SecGroup

/-- Typed detail entry of a network attachment on the observed task. -/
structure AttachmentDetail where
  name : String
  value : String

/-- Network attachment of the observed task: a kind tag and its details. -/
structure Attachment where
  type : String
  details : List AttachmentDetail

/-- Observed task as returned by the control plane; the projector only
reads its `attachments`. -/
structure EcsTask where
  attachments : List Attachment

/-- Python truthiness of a JSON-like value. -/
def jvTruthy : JVal → Bool
  | JVal.s v => !(v == "")
  | JVal.b v => v
  | JVal.null => false
  | JVal.arr vs => !vs.isEmpty
  | JVal.obj fs => !fs.isEmpty

/-- Source line 232: `(eni.association_attribute or \x7b\x7d).get("PublicIp")`
used as a condition: true when the association attribute is present and
holds a truthy `PublicIp` entry. -/
def eniPublicIp (eni : NetworkInterface) : Bool :=
  match eni.association_attribute with
  | some d =>
      match dlookup d "PublicIp" with
      | some v => jvTruthy v
      | none => false
  | none => false

/-- Source lines 221-229: the attachment loop.  Only attachments of type
`ElasticNetworkInterface` contribute; within one, every detail is visited,
appending `subnetId` values to the subnet list and `networkInterfaceId`
values to the interface list.  Returns (interface ids, subnet ids). -/
def collectNetworkDetails (attachments : List Attachment) :
    List String × List String :=
  attachments.foldl
    (fun acc attachment =>
      if attachment.type = "ElasticNetworkInterface" then
        attachment.details.foldl
          (fun acc2 detail =>
            let acc3 :=
              if detail.name = "subnetId" then
                (acc2.1, acc2.2 ++ [detail.value])
              else acc2
            if detail.name = "networkInterfaceId" then
              (acc3.1 ++ [detail.value], acc3.2)
            else acc3)
          acc
      else acc)
    ([], [])

/-- Source lines 231-236: the interface loop.  The public-IP flag becomes
true once any interface reports a truthy association, and every
interface's group ids are appended.  Returns (public-IP flag, group
ids). -/
def scanEnis (ec2 : String → NetworkInterface) (enis : List String) :
    Bool × List String :=
  enis.foldl
    (fun acc eid =>
      let eni := ec2 eid
      let pub := if eniPublicIp eni then true else acc.1
      (pub, acc.2 ++ eni.groups.map SecGroup.GroupId))
    (false, [])

/-- Source lines 211-251: `current_ecs_task_config`.  The network scans
complete, the constructor's argument expressions are evaluated (indexing
`task_definition["family"]` raises `KeyError` when absent), and then the
`DagsterEcsTaskConfig(...)` call itself raises `TypeError`, because the
`command` and `log_configuration` fields required by the dataclass are not
passed.  The function therefore never returns a configuration. -/
def current_ecs_task_config (ec2 : String → NetworkInterface)
    (cluster : String) (task : EcsTask) (task_definition : Dict)
    (environment secrets : Option (List JVal))
    (container_name image : String) :
    Except PyErr DagsterEcsTaskConfig :=
  let collected := collectNetworkDetails task.attachments
  let enis := collected.1
  let subnets := collected.2
  let scanned := scanEnis ec2 enis
  let public_ip := scanned.1
  let security_groups := scanned.2
  let execution_role_arn := dlookup task_definition "executionRoleArn"
  let task_role_arn := dlookup task_definition "taskRoleArn"
  match dlookup task_definition "family" with
  | none => Except.error (PyErr.keyError "family")
  | some _ => Except.error PyErr.typeError

/-- Example observed task from the spec's test scenario: two
network-interface attachments, each with one subnet id and one interface
id. -/
def taskEx : EcsTask :=
  { attachments :=
      [{ type := "ElasticNetworkInterface",
         details := [{ name := "subnetId", value := "subnet-1" },
                     { name := "networkInterfaceId", value := "eni-1" }] },
       { type := "ElasticNetworkInterface",
         details := [{ name := "subnetId", value := "subnet-2" },
                     { name := "networkInterfaceId", value := "eni-2" }] }] }

/-- Example network-interface query: `eni-1` has an associated public IP
and group `g1`; `eni-2` has no association and group `g2`. -/
def ec2Ex : String → NetworkInterface :=
  fun eid =>
    if eid = "eni-1" then
      { association_attribute := some [("PublicIp", JVal.s "1.2.3.4")],
        groups := [{ GroupId := "g1" }] }
    else
      { association_attribute := none, groups := [{ GroupId := "g2" }] }

/-- Example task definition supplied to the projector. -/
def tdEx : Dict :=
  [("family", JVal.s "fam0"), ("executionRoleArn", JVal.s "er")]

/-- C8, evaluated at the spec's own two-attachment scenario: the
collection loops do produce the interface and subnet lists, and the
interface scan does yield the any-public-IP flag and the union of group
ids, but the function then fails with `TypeError`, because the
`DagsterEcsTaskConfig` constructor call lacks the required `command` and
`log_configuration` arguments - no configuration is ever returned. -/
theorem task_config_type_error_spec :
    current_ecs_task_config ec2Ex "cl" taskEx tdEx none none "c" "i" =
      Except.error PyErr.typeError ∧
    collectNetworkDetails taskEx.attachments =
      (["eni-1", "eni-2"], ["subnet-1", "subnet-2"]) ∧
    scanEnis ec2Ex ["eni-1", "eni-2"] = (true, ["g1", "g2"]) :=
  ⟨rfl, rfl, rfl⟩
